import Mathlib

/-!
Shallow embedding of the lifecycle binding core of the `component` package
(`component.go`: `Componenter`, `Component`, `ComponentStatus`, `Start`, `Stop`).

Modelling decisions, each tied to the source:

* `*js.Object` values are modelled as `Option Nat`: `none` is a nil (or
  `js.Undefined`) pointer, `some h` an opaque foreign object identified by
  the numeral `h`.  Foreign instances created by `newMDCClassObj.New` are
  issued from a monotone counter (`World.nextHandle`), so two separate
  constructor calls always yield distinct handles, as in JavaScript.
* `error` values are `Option String` (`none` = nil error).
* `defer gojs.CatchException(&err)` recovers any foreign-runtime panic and
  stores it in `err`; the function then returns with whatever partial state
  it had mutated so far.  We model a foreign call that faults by returning
  immediately from `Start`/`Stop` with the fault message as the error and
  the state mutated exactly as far as the source had gotten.
* Which foreign calls fault is described by a `ForeignEnv`; every call that
  crosses into the foreign runtime is also recorded as an `FEvent` so that
  theorems can speak about which foreign operations were invoked.
* The Go type switches on the owner's dynamic type (`MDCClasser`,
  `ComponentTyper`, `AfterStarter`) are modelled by optional capability
  fields on `Owner`; a `case` arm of a Go type switch fires only when the
  earlier arms did not, which the embedding reproduces literally.
-/

namespace VectyMaterial

/-- Status enum `ComponentStatus` from the source: `Uninitialized` is the Go zero value
(`iota` = 0), then `Stopped`, then `Running`. -/
inductive ComponentStatus where
  | Uninitialized : ComponentStatus
  | Stopped : ComponentStatus
  | Running : ComponentStatus
deriving DecidableEq, Repr

/-- The Go struct `Component { mdc *js.Object; status ComponentStatus }`. -/
structure Component where
  mdc : Option Nat
  status : ComponentStatus
deriving DecidableEq, Repr

/-- The zero-value literal `&Component{}` allocated by `Start` when
`c.GetComponent() == nil`: both fields are Go zero values, so `mdc` is nil
and `status` is `Uninitialized` (= 0). -/
def freshComponent : Component :=
  { mdc := none, status := ComponentStatus.Uninitialized }

/-- The Go struct `ComponentType` with the two name tokens read by `Start`
(`MDCCamelCaseName`, `MDCClassName`); its definition lives in the same Go
package, and `Start` lines 139-140 read exactly these two string fields. -/
structure ComponentType where
  MDCCamelCaseName : String
  MDCClassName : String
deriving DecidableEq, Repr

/-- Behaviour of an owner's `AfterStart()` hook: it can return a nil error,
return a non-nil error, or raise a foreign-runtime fault (panic). -/
inductive HookBehavior where
  | returnsNil : HookBehavior
  | returnsErr : String → HookBehavior
  | panics : String → HookBehavior
deriving DecidableEq, Repr

/-- A `Componenter` owner: the component pointer that `GetComponent` /
`SetComponent` manage, plus the three optional capabilities `Start` and
`Stop` probe for via type switches.  `mdcClasser = true` means the owner's
dynamic type implements `MDCClasser`; `componentTyper = some t` means it
implements `ComponentTyper` with `ComponentType()` returning `t`;
`afterStarter = some b` means it implements `AfterStarter` with the given
hook behaviour. -/
structure Owner where
  comp : Option Component
  mdcClasser : Bool
  componentTyper : Option ComponentType
  afterStarter : Option HookBehavior
deriving DecidableEq, Repr

/-- Which foreign-runtime calls fault: `lookupFault` makes the global
`mdc` namespace lookup chain throw, `ctorFault` makes
`newMDCClassObj.New(rootElem)` throw, `destroyFault` makes
`mdc.Call("destroy")` throw. -/
structure ForeignEnv where
  lookupFault : Option String
  ctorFault : Option String
  destroyFault : Option String
deriving DecidableEq, Repr

/-- Foreign-runtime instance allocator: `New` returns the handle
`nextHandle` and bumps the counter, so handles are never reused. -/
structure World where
  nextHandle : Nat
deriving DecidableEq, Repr

/-- Observable foreign-runtime calls made during `Start`/`Stop`. -/
inductive FEvent where
  | lookupCall : String → String → FEvent
  | newCall : FEvent
  | destroyCall : Nat → FEvent
  | hookCall : FEvent
deriving DecidableEq, Repr

/-- Number of invocations of the foreign destroy operation in a trace. -/
def destroyCount (evs : List FEvent) : Nat :=
  evs.countP fun e =>
    match e with
    | FEvent.destroyCall _ => true
    | _ => false

/-- Number of named lookups in the global `mdc` namespace in a trace. -/
def lookupCount (evs : List FEvent) : Nat :=
  evs.countP fun e =>
    match e with
    | FEvent.lookupCall _ _ => true
    | _ => false

/-- The owner-observable status: `Component.String()`/`Status()` report
`Uninitialized` when the component pointer is nil. -/
def statusOf : Option Component → ComponentStatus
  | none => ComponentStatus.Uninitialized
  | some w => w.status

/-- Result of `Stop`: the returned error, the owner's component afterwards,
and the foreign calls made. -/
structure StopResult where
  err : Option String
  comp : Option Component
  events : List FEvent
deriving DecidableEq, Repr

/-- Embedding of `func Stop(c Componenter) (err error)`, lines 171-187.  Guards reject a
nil component ("GetComponent() returned nil."), a `Stopped` component
("Component already stopped") and an `Uninitialized` one ("Component is
uninitialized"); otherwise `c.GetComponent().mdc.Call("destroy")` runs (a
fault there is caught by the deferred handler, leaving the component
untouched), then `c.SetComponent(&Component{status: Stopped})`. -/
def Stop (env : ForeignEnv) (comp : Option Component) : StopResult :=
  match comp with
  | none => ⟨some "GetComponent() returned nil.", none, []⟩
  | some w =>
    match w.status with
    | ComponentStatus.Stopped => ⟨some "Component already stopped", some w, []⟩
    | ComponentStatus.Uninitialized => ⟨some "Component is uninitialized", some w, []⟩
    | ComponentStatus.Running =>
      match w.mdc with
      | none =>
        -- `mdc.Call("destroy")` on a nil `*js.Object` faults before any
        -- foreign destroy can run; the deferred handler converts it.
        ⟨some "runtime error: invalid memory address or nil pointer dereference", some w, []⟩
      | some h =>
        match env.destroyFault with
        | some f => ⟨some f, some w, [FEvent.destroyCall h]⟩
        | none => ⟨none, some { mdc := none, status := ComponentStatus.Stopped }, [FEvent.destroyCall h]⟩

/-- Result of `Start`: the returned error, the owner's component
afterwards, the allocator state, and the foreign calls made. -/
structure StartResult where
  err : Option String
  comp : Option Component
  world : World
  events : List FEvent
deriving DecidableEq, Repr

/-- Lines 151-163 of `Start`: `newMDCObj := newMDCClassObj.New(rootElem)`
(a fault leaves the component as it was), then
`c.GetComponent().mdc = newMDCObj; c.GetComponent().status = Running`,
then the `AfterStarter` type switch: an error from `AfterStart()` triggers
`Stop(c)` (whose own error is discarded) followed by `return err`; a panic
inside `AfterStart()` is caught by the deferred handler, so the `Stop`
rollback never runs. -/
def startConstruct (env : ForeignEnv) (o : Owner) (w0 : Component) (world : World)
    (evs : List FEvent) : StartResult :=
  match env.ctorFault with
  | some f => ⟨some f, some w0, world, evs ++ [FEvent.newCall]⟩
  | none =>
    let w1 : Component := { mdc := some world.nextHandle, status := ComponentStatus.Running }
    let world1 : World := ⟨world.nextHandle + 1⟩
    match o.afterStarter with
    | none => ⟨none, some w1, world1, evs ++ [FEvent.newCall]⟩
    | some HookBehavior.returnsNil =>
      ⟨none, some w1, world1, evs ++ [FEvent.newCall, FEvent.hookCall]⟩
    | some (HookBehavior.returnsErr e) =>
      let s := Stop env (some w1)
      ⟨some e, s.comp, world1, evs ++ [FEvent.newCall, FEvent.hookCall] ++ s.events⟩
    | some (HookBehavior.panics f) =>
      ⟨some f, some w1, world1, evs ++ [FEvent.newCall, FEvent.hookCall]⟩

/-- Lines 134-149 of `Start`: the resolution type switch.  `MDCClasser`
is the first arm, so it wins when both capabilities are present and no
namespace lookup happens; the `ComponentTyper` arm rejects an empty token
("Empty string in ComponentType") before touching the foreign runtime and
otherwise performs the `js.Global.Get("mdc").Get(...).Get(...)` lookup
(whose fault the deferred handler converts); with neither capability the
`default` arm returns the configuration error. -/
def startMain (env : ForeignEnv) (o : Owner) (w0 : Component) (world : World) : StartResult :=
  if o.mdcClasser then
    startConstruct env o w0 world []
  else
    match o.componentTyper with
    | some t =>
      if t.MDCCamelCaseName = "" ∨ t.MDCClassName = "" then
        ⟨some "Empty string in ComponentType", some w0, world, []⟩
      else
        match env.lookupFault with
        | some f =>
          ⟨some f, some w0, world, [FEvent.lookupCall t.MDCCamelCaseName t.MDCClassName]⟩
        | none =>
          startConstruct env o w0 world [FEvent.lookupCall t.MDCCamelCaseName t.MDCClassName]
    | none =>
      ⟨some ("The provided component does not implement " ++
        "component.ComponentTyper or component.MDCClasser."), some w0, world, []⟩

/-- Embedding of `func Start(c Componenter, rootElem *js.Object)`, lines
120-166.  The initial `switch` runs its first true arm only: a nil or
undefined `rootElem` returns "rootElem is nil."; a nil component gets
replaced by the zero-value `&Component{}` (and the `Running` arm is then
not examined); an existing `Running` component returns "Component already
started.". -/
def Start (env : ForeignEnv) (o : Owner) (rootElem : Option Nat) (world : World) : StartResult :=
  match rootElem with
  | none => ⟨some "rootElem is nil.", o.comp, world, []⟩
  | some _ =>
    match o.comp with
    | none => startMain env o freshComponent world
    | some w =>
      if w.status = ComponentStatus.Running then
        ⟨some "Component already started.", o.comp, world, []⟩
      else
        startMain env o w world

/-- The resolution phase succeeds for this owner in this environment:
either the explicit `MDCClasser` capability is present, or the
`ComponentTyper` capability is present with both name tokens non-empty and
the namespace lookup does not fault. -/
def resolveOk (env : ForeignEnv) (o : Owner) : Bool :=
  if o.mdcClasser then
    true
  else
    match o.componentTyper with
    | some t =>
      !(t.MDCCamelCaseName = "" : Bool) && !(t.MDCClassName = "" : Bool) && env.lookupFault.isNone
    | none => false

/-- The events produced by the resolution phase alone: the `MDCClasser`
arm makes no foreign call, the `ComponentTyper` arm records one namespace
lookup. -/
def resolveEvents (o : Owner) : List FEvent :=
  if o.mdcClasser then
    []
  else
    match o.componentTyper with
    | some t => [FEvent.lookupCall t.MDCCamelCaseName t.MDCClassName]
    | none => []

/-- Spec invariant 1 on a single wrapper: the foreign handle is non-null
iff the status is `Running`. -/
def handleIffRunning (w : Component) : Prop :=
  w.mdc ≠ none ↔ w.status = ComponentStatus.Running

instance (w : Component) : Decidable (handleIffRunning w) := by
  unfold handleIffRunning
  infer_instance

/-- Spec invariant 1 lifted to the owner's optional wrapper. -/
def compInv : Option Component → Prop
  | none => True
  | some w => handleIffRunning w

instance (c : Option Component) : Decidable (compInv c) := by
  unfold compInv
  cases c <;> infer_instance

/-! Sample owners and environments used by witnesses and counterexamples. -/

/-- Environment in which no foreign call faults. -/
def env0 : ForeignEnv := ⟨none, none, none⟩

/-- Initial allocator state. -/
def world0 : World := ⟨0⟩

/-- A well-formed `ComponentType` descriptor. -/
def tChk : ComponentType := ⟨"checkbox", "MDCCheckbox"⟩

/-- An owner with only the `MDCClasser` capability and no wrapper yet. -/
def ownerM : Owner := ⟨none, true, none, none⟩

/-- An owner with only the `ComponentTyper` capability and no wrapper yet. -/
def ownerT : Owner := ⟨none, false, some tChk, none⟩

/-- An owner with no resolution capability and no wrapper yet. -/
def ownerNone : Owner := ⟨none, false, none, none⟩

/-- An owner whose wrapper is already `Running` with handle 7. -/
def ownerRun : Owner :=
  ⟨some { mdc := some 7, status := ComponentStatus.Running }, true, none, none⟩

/-! Helper lemmas shared between several claims. -/

/-- When the resolution phase succeeds, `startMain` reduces to the
construction phase with exactly the resolution events performed so far. -/
theorem startMain_eq_of_resolveOk (env : ForeignEnv) (o : Owner) (w0 : Component)
    (world : World) (h : resolveOk env o = true) :
    startMain env o w0 world = startConstruct env o w0 world (resolveEvents o) := by
  unfold resolveOk at h
  unfold startMain resolveEvents
  cases hb : o.mdcClasser with
  | true => simp [hb]
  | false =>
    rw [hb] at h
    simp only [Bool.false_eq_true, if_false] at h ⊢
    rcases ht : o.componentTyper with _ | t
    · rw [ht] at h
      simp at h
    · rw [ht] at h
      simp only [Bool.and_eq_true, Bool.not_eq_true', decide_eq_false_iff_not,
        Option.isNone_iff_eq_none] at h
      obtain ⟨⟨h1, h2⟩, h3⟩ := h
      simp [h1, h2, h3]

/-- The resolution phase makes no destroy call. -/
theorem destroyCount_resolveEvents (o : Owner) : destroyCount (resolveEvents o) = 0 := by
  unfold destroyCount resolveEvents
  cases hb : o.mdcClasser
  · rcases o.componentTyper with _ | t <;> simp
  · simp

/-- Counting destroy calls distributes over trace concatenation. -/
theorem destroyCount_append (l1 l2 : List FEvent) :
    destroyCount (l1 ++ l2) = destroyCount l1 + destroyCount l2 :=
  List.countP_append _ _ _

/-- Counting namespace lookups distributes over trace concatenation. -/
theorem lookupCount_append (l1 l2 : List FEvent) :
    lookupCount (l1 ++ l2) = lookupCount l1 + lookupCount l2 :=
  List.countP_append _ _ _

/-- The construction-and-hook phase performs no namespace lookup beyond the
ones already recorded. -/
theorem lookupCount_startConstruct (env : ForeignEnv) (o : Owner) (w0 : Component)
    (world : World) (evs : List FEvent) :
    lookupCount (startConstruct env o w0 world evs).events = lookupCount evs := by
  unfold startConstruct
  rcases hctor : env.ctorFault with _ | f
  · rcases hhook : o.afterStarter with _ | hb
    · simp [lookupCount_append, lookupCount]
    · cases hb
      · simp [lookupCount_append, lookupCount]
      case returnsErr e =>
        rcases hd : env.destroyFault with _ | f
        · simp [Stop, hd, lookupCount_append, lookupCount]
        · simp [Stop, hd, lookupCount_append, lookupCount]
      case panics f => simp [lookupCount_append, lookupCount]
  · simp [lookupCount_append, lookupCount]

/-- Claim C6 below.  The error message `Stop` produces on a non-`Running`
component. -/
def stopGuardMsg (s : ComponentStatus) : String :=
  if s = ComponentStatus.Stopped then "Component already stopped"
  else "Component is uninitialized"

/-- C6: `Stop` on a component whose status is `Stopped` or `Uninitialized`
returns the corresponding state error ("Component already stopped" /
"Component is uninitialized"), never invokes the foreign destroy operation,
and mutates no state. -/
theorem C6_stop_on_stopped_or_uninitialized (env : ForeignEnv) (w : Component)
    (h : w.status ≠ ComponentStatus.Running) :
    (Stop env (some w)).err = some (stopGuardMsg w.status) ∧
    (Stop env (some w)).comp = some w ∧
    destroyCount (Stop env (some w)).events = 0 := by
  rcases w with ⟨m, s⟩
  cases s
  · simp [Stop, stopGuardMsg, destroyCount]
  · simp [Stop, stopGuardMsg, destroyCount]
  · simp at h

/-- Witness for C6 at a concrete `Stopped` component. -/
theorem C6_witness :
    Component.status { mdc := none, status := ComponentStatus.Stopped } ≠
      ComponentStatus.Running ∧
    ((Stop env0 (some { mdc := none, status := ComponentStatus.Stopped })).err =
      some (stopGuardMsg (Component.status { mdc := none, status := ComponentStatus.Stopped })) ∧
    (Stop env0 (some { mdc := none, status := ComponentStatus.Stopped })).comp =
      some { mdc := none, status := ComponentStatus.Stopped } ∧
    destroyCount (Stop env0 (some { mdc := none, status := ComponentStatus.Stopped })).events = 0) :=
  ⟨by decide,
    C6_stop_on_stopped_or_uninitialized env0
      { mdc := none, status := ComponentStatus.Stopped } (by decide)⟩

/-- C10: when the foreign destroy operation faults during `Stop` on a
`Running` component, `Stop` returns that fault as its error, the wrapper is
not replaced (status still `Running`, handle still stored), and retrying
`Stop` once the destroy operation stops faulting succeeds. -/
theorem C10_stop_destroy_fault (env : ForeignEnv) (f : String) (h : Nat)
    (hd : env.destroyFault = some f) :
    (Stop env (some { mdc := some h, status := ComponentStatus.Running })).err = some f ∧
    (Stop env (some { mdc := some h, status := ComponentStatus.Running })).comp =
      some { mdc := some h, status := ComponentStatus.Running } ∧
    (Stop { env with destroyFault := none }
      (some { mdc := some h, status := ComponentStatus.Running })).err = none := by
  simp [Stop, hd]

/-- Witness for C10: destroy faults with "boom" on handle 3. -/
theorem C10_witness :
    ForeignEnv.destroyFault ⟨none, none, some "boom"⟩ = some "boom" ∧
    ((Stop ⟨none, none, some "boom"⟩
        (some { mdc := some 3, status := ComponentStatus.Running })).err = some "boom" ∧
    (Stop ⟨none, none, some "boom"⟩
        (some { mdc := some 3, status := ComponentStatus.Running })).comp =
      some { mdc := some 3, status := ComponentStatus.Running } ∧
    (Stop { (⟨none, none, some "boom"⟩ : ForeignEnv) with destroyFault := none }
        (some { mdc := some 3, status := ComponentStatus.Running })).err = none) :=
  ⟨rfl, C10_stop_destroy_fault ⟨none, none, some "boom"⟩ "boom" 3 rfl⟩

/-- C5 as written is false: it quantifies over every mount point, but with
a nil mount point `Start` on a `Running` owner returns the validation error
"rootElem is nil." (the nil check is the first arm of the guard switch),
not the state error "Component already started.". -/
theorem C5_counterexample :
    (Start env0 ownerRun none world0).err = some "rootElem is nil." ∧
    (Start env0 ownerRun none world0).err ≠ some "Component already started." := by
  constructor
  · rfl
  · decide

/-- C5 amended: for every NON-NIL mount point, `Start` on an owner whose
wrapper is `Running` returns the state error "Component already started.",
constructs no new foreign object (no foreign call at all, allocator
untouched), and leaves the stored handle and status unchanged. -/
theorem C5_start_on_running (env : ForeignEnv) (o : Owner) (w : Component) (re : Nat)
    (world : World) (hc : o.comp = some w) (hr : w.status = ComponentStatus.Running) :
    Start env o (some re) world =
      ⟨some "Component already started.", o.comp, world, []⟩ := by
  simp [Start, hc, hr]

/-- Witness for C5 amended at the concrete `Running` owner. -/
theorem C5_witness :
    Owner.comp ownerRun = some { mdc := some 7, status := ComponentStatus.Running } ∧
    Component.status { mdc := some 7, status := ComponentStatus.Running } =
      ComponentStatus.Running ∧
    Start env0 ownerRun (some 0) world0 =
      ⟨some "Component already started.", ownerRun.comp, world0, []⟩ :=
  ⟨rfl, rfl,
    C5_start_on_running env0 ownerRun
      { mdc := some 7, status := ComponentStatus.Running } 0 world0 rfl rfl⟩

/-- A two-element trace without destroy calls. -/
theorem destroyCount_pair : destroyCount [FEvent.newCall, FEvent.hookCall] = 0 := rfl

/-- A single destroy call counts once. -/
theorem destroyCount_one (h : Nat) : destroyCount [FEvent.destroyCall h] = 1 := rfl

/-- The construct-hook-destroy trace holds exactly one destroy call. -/
theorem destroyCount_triple (h : Nat) :
    destroyCount [FEvent.newCall, FEvent.hookCall, FEvent.destroyCall h] = 1 := rfl

/-- C1: when the post-init hook returns a non-nil error during an otherwise
successful `Start` (mount point non-nil, resolution succeeds, constructor
and destroy do not fault, owner not already `Running`), `Start` returns
exactly the hook's error, the foreign destroy operation is invoked exactly
once by the internal rollback `Stop`, and the final observable status is
`Stopped`. -/
theorem C1_hook_error_rollback (env : ForeignEnv) (o : Owner) (re : Nat) (world : World)
    (e : String)
    (hhook : o.afterStarter = some (HookBehavior.returnsErr e))
    (hres : resolveOk env o = true)
    (hctor : env.ctorFault = none)
    (hdest : env.destroyFault = none)
    (hnr : statusOf o.comp ≠ ComponentStatus.Running) :
    (Start env o (some re) world).err = some e ∧
    destroyCount (Start env o (some re) world).events = 1 ∧
    statusOf (Start env o (some re) world).comp = ComponentStatus.Stopped := by
  obtain ⟨c, m, t, a⟩ := o
  replace hhook : a = some (HookBehavior.returnsErr e) := hhook
  rcases c with _ | w
  · have hS : Start env ⟨none, m, t, a⟩ (some re) world =
        startMain env ⟨none, m, t, a⟩ freshComponent world := rfl
    rw [hS, startMain_eq_of_resolveOk env _ freshComponent world hres]
    simp [startConstruct, hctor, hhook, Stop, hdest, statusOf,
      destroyCount_append, destroyCount_resolveEvents, destroyCount_pair, destroyCount_one,
      destroyCount_triple]
  · replace hnr : ¬ w.status = ComponentStatus.Running := hnr
    have hS : Start env ⟨some w, m, t, a⟩ (some re) world =
        startMain env ⟨some w, m, t, a⟩ w world := by
      simp [Start, hnr]
    rw [hS, startMain_eq_of_resolveOk env _ w world hres]
    simp [startConstruct, hctor, hhook, Stop, hdest, statusOf,
      destroyCount_append, destroyCount_resolveEvents, destroyCount_pair, destroyCount_one,
      destroyCount_triple]

/-- Owner used by the C1 witness: explicit descriptor, hook that fails. -/
def oC1 : Owner := ⟨none, true, none, some (HookBehavior.returnsErr "hook failed")⟩

/-- Witness for C1 at a concrete owner whose hook fails with "hook failed". -/
theorem C1_witness :
    Owner.afterStarter oC1 = some (HookBehavior.returnsErr "hook failed") ∧
    resolveOk env0 oC1 = true ∧
    ForeignEnv.ctorFault env0 = none ∧
    ForeignEnv.destroyFault env0 = none ∧
    statusOf oC1.comp ≠ ComponentStatus.Running ∧
    ((Start env0 oC1 (some 0) world0).err = some "hook failed" ∧
      destroyCount (Start env0 oC1 (some 0) world0).events = 1 ∧
      statusOf (Start env0 oC1 (some 0) world0).comp = ComponentStatus.Stopped) :=
  ⟨rfl, rfl, rfl, rfl, by decide,
    C1_hook_error_rollback env0 oC1 0 world0 "hook failed" rfl rfl rfl rfl (by decide)⟩

/-- C3: when the post-init hook raises a foreign-runtime fault (panics)
instead of returning an error value, the deferred catch makes `Start`
return that fault as its error, but the rollback `Stop` is never invoked:
the owner keeps status `Running` with the just-created handle stored, and
the foreign destroy operation is never called. -/
theorem C3_hook_panic_no_rollback (env : ForeignEnv) (o : Owner) (re : Nat) (world : World)
    (f : String)
    (hhook : o.afterStarter = some (HookBehavior.panics f))
    (hres : resolveOk env o = true)
    (hctor : env.ctorFault = none)
    (hnr : statusOf o.comp ≠ ComponentStatus.Running) :
    (Start env o (some re) world).err = some f ∧
    (Start env o (some re) world).comp =
      some { mdc := some world.nextHandle, status := ComponentStatus.Running } ∧
    destroyCount (Start env o (some re) world).events = 0 := by
  obtain ⟨c, m, t, a⟩ := o
  replace hhook : a = some (HookBehavior.panics f) := hhook
  rcases c with _ | w
  · have hS : Start env ⟨none, m, t, a⟩ (some re) world =
        startMain env ⟨none, m, t, a⟩ freshComponent world := rfl
    rw [hS, startMain_eq_of_resolveOk env _ freshComponent world hres]
    simp [startConstruct, hctor, hhook,
      destroyCount_append, destroyCount_resolveEvents, destroyCount_pair]
  · replace hnr : ¬ w.status = ComponentStatus.Running := hnr
    have hS : Start env ⟨some w, m, t, a⟩ (some re) world =
        startMain env ⟨some w, m, t, a⟩ w world := by
      simp [Start, hnr]
    rw [hS, startMain_eq_of_resolveOk env _ w world hres]
    simp [startConstruct, hctor, hhook,
      destroyCount_append, destroyCount_resolveEvents, destroyCount_pair]

/-- Owner used by the C3 witness: explicit descriptor, hook that panics. -/
def oC3 : Owner := ⟨none, true, none, some (HookBehavior.panics "boom")⟩

/-- Witness for C3 at a concrete owner whose hook panics with "boom". -/
theorem C3_witness :
    Owner.afterStarter oC3 = some (HookBehavior.panics "boom") ∧
    resolveOk env0 oC3 = true ∧
    ForeignEnv.ctorFault env0 = none ∧
    statusOf oC3.comp ≠ ComponentStatus.Running ∧
    ((Start env0 oC3 (some 0) world0).err = some "boom" ∧
      (Start env0 oC3 (some 0) world0).comp =
        some { mdc := some world0.nextHandle, status := ComponentStatus.Running } ∧
      destroyCount (Start env0 oC3 (some 0) world0).events = 0) :=
  ⟨rfl, rfl, rfl, by decide,
    C3_hook_panic_no_rollback env0 oC3 0 world0 "boom" rfl rfl rfl (by decide)⟩

/-- C2 as written is false on two counts, both at the concrete input
below: the fresh wrapper `Start` allocates for an absent component is the
zero value, whose status is `Uninitialized` (not `Stopped`, observable here
because resolution then fails and the fresh wrapper is left in place), and
a successful `Start` on an absent wrapper moves the observable status
directly from `Uninitialized` to `Running` without passing through
`Stopped`. -/
theorem C2_counterexample :
    (Start env0 ownerNone (some 0) world0).comp =
      some { mdc := none, status := ComponentStatus.Uninitialized } ∧
    ComponentStatus.Uninitialized ≠ ComponentStatus.Stopped ∧
    statusOf (Owner.comp ownerM) = ComponentStatus.Uninitialized ∧
    statusOf (Start env0 ownerM (some 0) world0).comp = ComponentStatus.Running := by
  refine ⟨rfl, by decide, rfl, rfl⟩

/-- On every path, the construction-and-hook phase either leaves the
component it was given or ends with status `Running` or `Stopped`. -/
theorem startConstruct_status_cases (env : ForeignEnv) (o : Owner) (w0 : Component)
    (world : World) (evs : List FEvent) :
    (startConstruct env o w0 world evs).comp = some w0 ∨
    statusOf (startConstruct env o w0 world evs).comp = ComponentStatus.Running ∨
    statusOf (startConstruct env o w0 world evs).comp = ComponentStatus.Stopped := by
  unfold startConstruct
  rcases hctor : env.ctorFault with _ | f
  · rcases hhook : o.afterStarter with _ | hb
    · right; left; rfl
    · cases hb with
      | returnsNil => right; left; rfl
      | returnsErr e =>
        rcases hd : env.destroyFault with _ | f2
        · right; right; simp [Stop, hd, statusOf]
        · right; left; simp [Stop, hd, statusOf]
      | panics f2 => right; left; rfl
  · left; rfl

/-- On every path, `startMain` either leaves the component it was given or
ends with status `Running` or `Stopped`. -/
theorem startMain_status_cases (env : ForeignEnv) (o : Owner) (w0 : Component)
    (world : World) :
    (startMain env o w0 world).comp = some w0 ∨
    statusOf (startMain env o w0 world).comp = ComponentStatus.Running ∨
    statusOf (startMain env o w0 world).comp = ComponentStatus.Stopped := by
  obtain ⟨c, m, t, a⟩ := o
  cases m
  · rcases t with _ | ty
    · left; simp [startMain]
    · by_cases he : ty.MDCCamelCaseName = "" ∨ ty.MDCClassName = ""
      · left; simp [startMain, he]
      · rcases hl : env.lookupFault with _ | f
        · have hS : startMain env ⟨c, false, some ty, a⟩ w0 world =
              startConstruct env ⟨c, false, some ty, a⟩ w0 world
                [FEvent.lookupCall ty.MDCCamelCaseName ty.MDCClassName] := by
            simp [startMain, he, hl]
          rw [hS]
          exact startConstruct_status_cases env _ w0 world _
        · left; simp [startMain, he, hl]
  · have hS : startMain env ⟨c, true, t, a⟩ w0 world =
        startConstruct env ⟨c, true, t, a⟩ w0 world [] := by
      simp [startMain]
    rw [hS]
    exact startConstruct_status_cases env _ w0 world []

/-- C2 amended: the fresh wrapper allocated by `Start` for an absent
component is the zero value with status `Uninitialized`; every observable
status change performed by `Start` starts from a non-`Running` status
(`Stopped` or `Uninitialized`) and ends in `Running` or (via the rollback)
`Stopped`; and the only status change `Stop` performs is from `Running` to
`Stopped`. -/
theorem C2_amended_status_transitions (env : ForeignEnv) (o : Owner) (re : Option Nat)
    (world : World) (comp : Option Component) :
    freshComponent.status = ComponentStatus.Uninitialized ∧
    (statusOf (Start env o re world).comp ≠ statusOf o.comp →
      statusOf o.comp ≠ ComponentStatus.Running ∧
      (statusOf (Start env o re world).comp = ComponentStatus.Running ∨
        statusOf (Start env o re world).comp = ComponentStatus.Stopped)) ∧
    (statusOf (Stop env comp).comp ≠ statusOf comp →
      statusOf comp = ComponentStatus.Running ∧
      statusOf (Stop env comp).comp = ComponentStatus.Stopped) := by
  refine ⟨rfl, ?_, ?_⟩
  · obtain ⟨c, m, t, a⟩ := o
    rcases re with _ | r
    · intro hne; exact absurd rfl hne
    · rcases c with _ | w
      · intro hne
        have hS : Start env ⟨none, m, t, a⟩ (some r) world =
            startMain env ⟨none, m, t, a⟩ freshComponent world := rfl
        rw [hS] at hne ⊢
        refine ⟨(by decide : ComponentStatus.Uninitialized ≠ ComponentStatus.Running), ?_⟩
        rcases startMain_status_cases env ⟨none, m, t, a⟩ freshComponent world with h | h | h
        · rw [h] at hne; exact absurd rfl hne
        · left; exact h
        · right; exact h
      · by_cases hw : w.status = ComponentStatus.Running
        · intro hne
          have hS : Start env ⟨some w, m, t, a⟩ (some r) world =
              ⟨some "Component already started.", some w, world, []⟩ := by
            simp [Start, hw]
          rw [hS] at hne
          exact absurd rfl hne
        · intro hne
          have hS : Start env ⟨some w, m, t, a⟩ (some r) world =
              startMain env ⟨some w, m, t, a⟩ w world := by
            simp [Start, hw]
          rw [hS] at hne ⊢
          refine ⟨hw, ?_⟩
          rcases startMain_status_cases env ⟨some w, m, t, a⟩ w world with h | h | h
          · rw [h] at hne; exact absurd rfl hne
          · left; exact h
          · right; exact h
  · rcases comp with _ | ⟨mm, s⟩
    · intro hne; exact absurd rfl hne
    · cases s
      · intro hne; exact absurd rfl hne
      · intro hne; exact absurd rfl hne
      · rcases mm with _ | h'
        · intro hne; exact absurd rfl hne
        · rcases hd : env.destroyFault with _ | f
          · intro _
            refine ⟨rfl, ?_⟩
            simp [Stop, hd, statusOf]
          · intro hne
            have hS : Stop env (some { mdc := some h', status := ComponentStatus.Running }) =
                ⟨some f, some { mdc := some h', status := ComponentStatus.Running },
                  [FEvent.destroyCall h']⟩ := by
              simp [Stop, hd]
            rw [hS] at hne
            exact absurd rfl hne

/-- Witness for C2 amended: `Stop` on a `Running` component with handle 3
changes the status, and the change is exactly `Running` to `Stopped`. -/
theorem C2_amended_witness :
    statusOf (Stop env0 (some { mdc := some 3, status := ComponentStatus.Running })).comp ≠
      statusOf (some { mdc := some 3, status := ComponentStatus.Running }) ∧
    (statusOf (some { mdc := some 3, status := ComponentStatus.Running }) =
        ComponentStatus.Running ∧
      statusOf (Stop env0 (some { mdc := some 3, status := ComponentStatus.Running })).comp =
        ComponentStatus.Stopped) :=
  ⟨by decide,
    (C2_amended_status_transitions env0 ownerM (some 0) world0
      (some { mdc := some 3, status := ComponentStatus.Running })).2.2 (by decide)⟩

/-- The empty trace holds no namespace lookup. -/
theorem lookupCount_nil : lookupCount [] = 0 := rfl

/-- `Stop` preserves the handle-iff-running invariant. -/
theorem stop_compInv (env : ForeignEnv) (comp : Option Component) (h : compInv comp) :
    compInv (Stop env comp).comp := by
  rcases comp with _ | ⟨mm, s⟩
  · simp [Stop, compInv]
  · cases s
    · simpa [Stop, compInv] using h
    · simpa [Stop, compInv] using h
    · rcases mm with _ | h'
      · simpa [Stop, compInv] using h
      · rcases hd : env.destroyFault with _ | f
        · simp [Stop, hd, compInv, handleIffRunning]
        · simpa [Stop, hd, compInv] using h

/-- The construction-and-hook phase preserves the handle-iff-running
invariant. -/
theorem startConstruct_compInv (env : ForeignEnv) (o : Owner) (w0 : Component)
    (world : World) (evs : List FEvent) (h : compInv (some w0)) :
    compInv (startConstruct env o w0 world evs).comp := by
  rcases hctor : env.ctorFault with _ | f
  · rcases hhook : o.afterStarter with _ | hb
    · simp [startConstruct, hctor, hhook, compInv, handleIffRunning]
    · cases hb with
      | returnsNil => simp [startConstruct, hctor, hhook, compInv, handleIffRunning]
      | returnsErr e =>
        have hs : compInv (Stop env
            (some { mdc := some world.nextHandle, status := ComponentStatus.Running })).comp :=
          stop_compInv env _ (by simp [compInv, handleIffRunning])
        simpa [startConstruct, hctor, hhook] using hs
      | panics f2 => simp [startConstruct, hctor, hhook, compInv, handleIffRunning]
  · simpa [startConstruct, hctor] using h

/-- The resolution phase (and everything after it) preserves the
handle-iff-running invariant. -/
theorem startMain_compInv (env : ForeignEnv) (o : Owner) (w0 : Component)
    (world : World) (h : compInv (some w0)) :
    compInv (startMain env o w0 world).comp := by
  obtain ⟨c, m, t, a⟩ := o
  cases m
  · rcases t with _ | ty
    · simpa [startMain] using h
    · by_cases he : ty.MDCCamelCaseName = "" ∨ ty.MDCClassName = ""
      · simpa [startMain, he] using h
      · rcases hl : env.lookupFault with _ | f
        · have hS : startMain env ⟨c, false, some ty, a⟩ w0 world =
              startConstruct env ⟨c, false, some ty, a⟩ w0 world
                [FEvent.lookupCall ty.MDCCamelCaseName ty.MDCClassName] := by
            simp [startMain, he, hl]
          rw [hS]
          exact startConstruct_compInv env _ w0 world _ h
        · simpa [startMain, he, hl] using h
  · have hS : startMain env ⟨c, true, t, a⟩ w0 world =
        startConstruct env ⟨c, true, t, a⟩ w0 world [] := by
      simp [startMain]
    rw [hS]
    exact startConstruct_compInv env _ w0 world [] h

/-- C4: both `Start` and `Stop` preserve spec invariant 1: for a non-nil
wrapper satisfying it beforehand, after any completed call (successful or
failed) the wrapper's foreign handle is non-null iff its status is
`Running`. -/
theorem C4_handle_iff_running (env : ForeignEnv) (o : Owner) (re : Option Nat)
    (world : World) (comp : Option Component)
    (h1 : compInv o.comp) (h2 : compInv comp) :
    compInv (Start env o re world).comp ∧ compInv (Stop env comp).comp := by
  refine ⟨?_, stop_compInv env comp h2⟩
  obtain ⟨c, m, t, a⟩ := o
  replace h1 : compInv c := h1
  rcases re with _ | r
  · exact h1
  · rcases c with _ | w
    · exact startMain_compInv env _ freshComponent world
        (by simp [compInv, handleIffRunning, freshComponent])
    · by_cases hw : w.status = ComponentStatus.Running
      · have hS : Start env ⟨some w, m, t, a⟩ (some r) world =
            ⟨some "Component already started.", some w, world, []⟩ := by
          simp [Start, hw]
        rw [hS]
        exact h1
      · have hS : Start env ⟨some w, m, t, a⟩ (some r) world =
            startMain env ⟨some w, m, t, a⟩ w world := by
          simp [Start, hw]
        rw [hS]
        exact startMain_compInv env _ w world h1

/-- Witness for C4 at a concrete owner and a concrete `Running` wrapper. -/
theorem C4_witness :
    compInv (Owner.comp ownerM) ∧
    compInv (some { mdc := some 3, status := ComponentStatus.Running }) ∧
    (compInv (Start env0 ownerM (some 0) world0).comp ∧
      compInv (Stop env0 (some { mdc := some 3, status := ComponentStatus.Running })).comp) :=
  ⟨by decide, by decide,
    C4_handle_iff_running env0 ownerM (some 0) world0
      (some { mdc := some 3, status := ComponentStatus.Running }) (by decide) (by decide)⟩

/-- With the explicit `MDCClasser` capability present, the resolution
phase never consults the `ComponentTyper` capability: dropping the latter
does not change the run. -/
theorem startMain_noTyper (env : ForeignEnv) (o : Owner) (w0 : Component) (world : World)
    (hm : o.mdcClasser = true) :
    startMain env { o with componentTyper := none } w0 world = startMain env o w0 world := by
  obtain ⟨c, m, t, a⟩ := o
  replace hm : m = true := hm
  subst hm
  rfl

/-- Lifting of `startMain_noTyper` to the whole of `Start`. -/
theorem start_noTyper (env : ForeignEnv) (o : Owner) (re : Option Nat) (world : World)
    (hm : o.mdcClasser = true) :
    Start env { o with componentTyper := none } re world = Start env o re world := by
  obtain ⟨c, m, t, a⟩ := o
  replace hm : m = true := hm
  subst hm
  rcases re with _ | r
  · rfl
  · rcases c with _ | w
    · exact startMain_noTyper env ⟨none, true, t, a⟩ freshComponent world rfl
    · by_cases hw : w.status = ComponentStatus.Running
      · simp [Start, hw]
      · simp only [Start]
        rw [if_neg hw, if_neg hw]
        exact startMain_noTyper env ⟨some w, true, t, a⟩ w world rfl

/-- An owner with the explicit `MDCClasser` capability never triggers a
namespace lookup during `Start`. -/
theorem lookupCount_start_mdcClasser (env : ForeignEnv) (o : Owner) (re : Option Nat)
    (world : World) (hm : o.mdcClasser = true) :
    lookupCount (Start env o re world).events = 0 := by
  obtain ⟨c, m, t, a⟩ := o
  replace hm : m = true := hm
  subst hm
  rcases re with _ | r
  · simp [Start, lookupCount_nil]
  · rcases c with _ | w
    · have hS : Start env ⟨none, true, t, a⟩ (some r) world =
          startConstruct env ⟨none, true, t, a⟩ freshComponent world [] := by
        simp [Start, startMain]
      rw [hS, lookupCount_startConstruct]
      rfl
    · by_cases hw : w.status = ComponentStatus.Running
      · simp [Start, hw, lookupCount_nil]
      · have hS : Start env ⟨some w, true, t, a⟩ (some r) world =
            startConstruct env ⟨some w, true, t, a⟩ w world [] := by
          simp [Start, hw, startMain]
        rw [hS, lookupCount_startConstruct]
        rfl

/-- C7: with the explicit descriptor capability present, `Start` resolves
from it — the run is identical with the named-lookup capability removed —
and never performs the named lookup in the well-known foreign namespace;
any performed lookup implies the explicit capability was absent; and with
neither capability `Start` returns the configuration error without any
foreign call, leaving allocator and observable status unchanged. -/
theorem C7_resolution_priority (env : ForeignEnv) (o : Owner) (re : Option Nat)
    (world : World) :
    (o.mdcClasser = true →
      Start env { o with componentTyper := none } re world = Start env o re world ∧
      lookupCount (Start env o re world).events = 0) ∧
    (lookupCount (Start env o re world).events ≠ 0 → o.mdcClasser = false) ∧
    (o.mdcClasser = false → o.componentTyper = none → re ≠ none →
      statusOf o.comp ≠ ComponentStatus.Running →
      (Start env o re world).err =
        some ("The provided component does not implement " ++
          "component.ComponentTyper or component.MDCClasser.") ∧
      (Start env o re world).events = [] ∧
      (Start env o re world).world = world ∧
      statusOf (Start env o re world).comp = statusOf o.comp) := by
  refine ⟨fun hm => ⟨start_noTyper env o re world hm,
    lookupCount_start_mdcClasser env o re world hm⟩, ?_, ?_⟩
  · intro hl
    cases hb : o.mdcClasser
    · rfl
    · exact absurd (lookupCount_start_mdcClasser env o re world hb) hl
  · intro hm ht hre hnr
    obtain ⟨c, m, t, a⟩ := o
    replace hm : m = false := hm
    subst hm
    replace ht : t = none := ht
    subst ht
    rcases re with _ | r
    · exact absurd rfl hre
    · rcases c with _ | w
      · exact ⟨rfl, rfl, rfl, rfl⟩
      · replace hnr : ¬ w.status = ComponentStatus.Running := hnr
        have hS : Start env ⟨some w, false, none, a⟩ (some r) world =
            startMain env ⟨some w, false, none, a⟩ w world := by
          simp [Start, hnr]
        rw [hS]
        exact ⟨rfl, rfl, rfl, rfl⟩

/-- Witness for C7: the explicit-descriptor arm at a concrete owner
implementing `MDCClasser`. -/
theorem C7_witness :
    Owner.mdcClasser ownerM = true ∧
    (Start env0 { ownerM with componentTyper := none } (some 0) world0 =
        Start env0 ownerM (some 0) world0 ∧
      lookupCount (Start env0 ownerM (some 0) world0).events = 0) :=
  ⟨rfl, (C7_resolution_priority env0 ownerM (some 0) world0).1 rfl⟩

/-- C8: an owner resolving by named lookup with an empty name token gets
the configuration error "Empty string in ComponentType" from `Start`
before any foreign call, with the observable status (and the allocator)
unchanged. -/
theorem C8_empty_token_config_error (env : ForeignEnv) (o : Owner) (re : Nat)
    (world : World) (t : ComponentType)
    (hm : o.mdcClasser = false)
    (ht : o.componentTyper = some t)
    (he : t.MDCCamelCaseName = "" ∨ t.MDCClassName = "")
    (hnr : statusOf o.comp ≠ ComponentStatus.Running) :
    (Start env o (some re) world).err = some "Empty string in ComponentType" ∧
    (Start env o (some re) world).events = [] ∧
    statusOf (Start env o (some re) world).comp = statusOf o.comp ∧
    (Start env o (some re) world).world = world := by
  obtain ⟨c, m, ty, a⟩ := o
  replace hm : m = false := hm
  subst hm
  replace ht : ty = some t := ht
  subst ht
  rcases c with _ | w
  · have hS : Start env ⟨none, false, some t, a⟩ (some re) world =
        ⟨some "Empty string in ComponentType", some freshComponent, world, []⟩ := by
      simp [Start, startMain, he]
    rw [hS]
    exact ⟨rfl, rfl, rfl, rfl⟩
  · replace hnr : ¬ w.status = ComponentStatus.Running := hnr
    have hS : Start env ⟨some w, false, some t, a⟩ (some re) world =
        ⟨some "Empty string in ComponentType", some w, world, []⟩ := by
      simp [Start, startMain, hnr, he]
    rw [hS]
    exact ⟨rfl, rfl, rfl, rfl⟩

/-- Owner used by the C8 witness: named lookup with an empty class token. -/
def oC8 : Owner := ⟨none, false, some ⟨"checkbox", ""⟩, none⟩

/-- Witness for C8 at a concrete owner whose class-segment token is empty. -/
theorem C8_witness :
    Owner.mdcClasser oC8 = false ∧
    Owner.componentTyper oC8 = some ⟨"checkbox", ""⟩ ∧
    (ComponentType.MDCCamelCaseName ⟨"checkbox", ""⟩ = "" ∨
      ComponentType.MDCClassName ⟨"checkbox", ""⟩ = "") ∧
    statusOf oC8.comp ≠ ComponentStatus.Running ∧
    ((Start env0 oC8 (some 0) world0).err = some "Empty string in ComponentType" ∧
      (Start env0 oC8 (some 0) world0).events = [] ∧
      statusOf (Start env0 oC8 (some 0) world0).comp = statusOf oC8.comp ∧
      (Start env0 oC8 (some 0) world0).world = world0) :=
  ⟨rfl, rfl, Or.inr rfl, by decide,
    C8_empty_token_config_error env0 oC8 0 world0 ⟨"checkbox", ""⟩ rfl rfl (Or.inr rfl)
      (by decide)⟩

/-- Spec testable property 1: with a resolvable descriptor, a healthy
constructor, a hook that is absent or succeeds, and a non-`Running` owner,
`Start` succeeds and stores the freshly issued handle with status
`Running`, bumping the allocator. -/
theorem start_success (env : ForeignEnv) (o : Owner) (re : Nat) (world : World)
    (hres : resolveOk env o = true)
    (hctor : env.ctorFault = none)
    (hhook : o.afterStarter = none ∨ o.afterStarter = some HookBehavior.returnsNil)
    (hnr : statusOf o.comp ≠ ComponentStatus.Running) :
    (Start env o (some re) world).err = none ∧
    (Start env o (some re) world).comp =
      some { mdc := some world.nextHandle, status := ComponentStatus.Running } ∧
    (Start env o (some re) world).world = ⟨world.nextHandle + 1⟩ := by
  obtain ⟨c, m, t, a⟩ := o
  replace hhook : a = none ∨ a = some HookBehavior.returnsNil := hhook
  rcases c with _ | w
  · have hS : Start env ⟨none, m, t, a⟩ (some re) world =
        startMain env ⟨none, m, t, a⟩ freshComponent world := rfl
    rw [hS, startMain_eq_of_resolveOk env _ freshComponent world hres]
    rcases hhook with h | h <;> simp [startConstruct, hctor, h]
  · replace hnr : ¬ w.status = ComponentStatus.Running := hnr
    have hS : Start env ⟨some w, m, t, a⟩ (some re) world =
        startMain env ⟨some w, m, t, a⟩ w world := by
      simp [Start, hnr]
    rw [hS, startMain_eq_of_resolveOk env _ w world hres]
    rcases hhook with h | h <;> simp [startConstruct, hctor, h]

/-- C9: with a healthy foreign runtime, `Start`, then `Stop`, then `Start`
again on the same owner all succeed, and the handle stored by the second
`Start` is a distinct foreign instance from the first one (the allocator
never reissues a handle). -/
theorem C9_round_trip (env : ForeignEnv) (o : Owner) (re : Nat) (world : World)
    (hres : resolveOk env o = true)
    (hctor : env.ctorFault = none)
    (hdest : env.destroyFault = none)
    (hhook : o.afterStarter = none ∨ o.afterStarter = some HookBehavior.returnsNil)
    (hnr : statusOf o.comp ≠ ComponentStatus.Running) :
    (Start env o (some re) world).err = none ∧
    (Stop env (Start env o (some re) world).comp).err = none ∧
    (Start env { o with comp := (Stop env (Start env o (some re) world).comp).comp }
        (some re) (Start env o (some re) world).world).err = none ∧
    (Start env o (some re) world).comp =
      some { mdc := some world.nextHandle, status := ComponentStatus.Running } ∧
    (Start env { o with comp := (Stop env (Start env o (some re) world).comp).comp }
        (some re) (Start env o (some re) world).world).comp =
      some { mdc := some (world.nextHandle + 1), status := ComponentStatus.Running } ∧
    world.nextHandle ≠ world.nextHandle + 1 := by
  obtain ⟨hE, hC, hW⟩ := start_success env o re world hres hctor hhook hnr
  rw [hC, hW]
  have hS : Stop env (some { mdc := some world.nextHandle, status := ComponentStatus.Running }) =
      ⟨none, some { mdc := none, status := ComponentStatus.Stopped },
        [FEvent.destroyCall world.nextHandle]⟩ := by
    simp [Stop, hdest]
  rw [hS]
  have hres2 : resolveOk env
      { o with comp := some { mdc := none, status := ComponentStatus.Stopped } } = true := hres
  have hhook2 : Owner.afterStarter
        { o with comp := some { mdc := none, status := ComponentStatus.Stopped } } = none ∨
      Owner.afterStarter
        { o with comp := some { mdc := none, status := ComponentStatus.Stopped } } =
        some HookBehavior.returnsNil := hhook
  have hnr2 : statusOf (Owner.comp
        { o with comp := some { mdc := none, status := ComponentStatus.Stopped } }) ≠
      ComponentStatus.Running :=
    (by decide : ComponentStatus.Stopped ≠ ComponentStatus.Running)
  obtain ⟨hE2, hC2, hW2⟩ := start_success env
    { o with comp := some { mdc := none, status := ComponentStatus.Stopped } } re
    ⟨world.nextHandle + 1⟩ hres2 hctor hhook2 hnr2
  exact ⟨hE, rfl, hE2, rfl, hC2, by omega⟩

/-- Witness for C9 at a concrete named-lookup owner, starting from a fresh
allocator. -/
theorem C9_witness :
    resolveOk env0 ownerT = true ∧
    ForeignEnv.ctorFault env0 = none ∧
    ForeignEnv.destroyFault env0 = none ∧
    (Owner.afterStarter ownerT = none ∨
      Owner.afterStarter ownerT = some HookBehavior.returnsNil) ∧
    statusOf ownerT.comp ≠ ComponentStatus.Running ∧
    ((Start env0 ownerT (some 0) world0).err = none ∧
      (Stop env0 (Start env0 ownerT (some 0) world0).comp).err = none ∧
      (Start env0 { ownerT with
          comp := (Stop env0 (Start env0 ownerT (some 0) world0).comp).comp }
        (some 0) (Start env0 ownerT (some 0) world0).world).err = none ∧
      (Start env0 ownerT (some 0) world0).comp =
        some { mdc := some world0.nextHandle, status := ComponentStatus.Running } ∧
      (Start env0 { ownerT with
          comp := (Stop env0 (Start env0 ownerT (some 0) world0).comp).comp }
        (some 0) (Start env0 ownerT (some 0) world0).world).comp =
        some { mdc := some (world0.nextHandle + 1), status := ComponentStatus.Running } ∧
      world0.nextHandle ≠ world0.nextHandle + 1) :=
  ⟨by decide, rfl, rfl, Or.inl rfl, by decide,
    C9_round_trip env0 ownerT 0 world0 (by decide) rfl rfl (Or.inl rfl) (by decide)⟩

end VectyMaterial
